import Mathlib

/-!
Verification of the Coral Fuzzy resilient request execution pipeline.

Shallow embedding of the relevant source units:
- `src/utils/circuit-breaker.ts` (`CircuitBreakerHandler`)
- `src/utils/retry.ts` (`RetryHandler`)
- `src/utils/rate-limit.ts` (`RateLimitHandler`)
- `src/utils/batch.ts` (`BatchHandler`, first unit)
- `CoralFuzzy.executeRequest` (second unit of `src/adapters/xhr-adapter.ts`)

JavaScript promises are modelled by passing the outcome of the wrapped call
explicitly; mutable handler fields become explicit state records; `Date.now()`
becomes an explicit `now : Nat` argument.
-/

namespace CoralFuzzy

/-! ## Shared data model -/

/-- A response value. `status` is the HTTP status; `payload` stands for all the
remaining fields of the JS response object, so that two responses with the same
status can still differ. -/
structure Resp where
  status : Nat
  payload : Nat
deriving DecidableEq

/-- A thrown JS error as the pipeline components inspect it: an optional
`error.response` (present when the adapter rejected with an HTTP response
attached), an optional truthy `error.code` string, and a message that carries
the identity of the error object. -/
structure JsError where
  msg : String
  response : Option Resp
  code : Option String
deriving DecidableEq

/-- Result of awaiting the wrapped call: it either resolved with a response or
rejected with an error. -/
inductive NextOutcome
  | resolves (r : Resp)
  | rejects (e : JsError)
deriving DecidableEq

/-- Result of a try/catch around the wrapped call. -/
inductive TryResult
  | ok (r : Resp)
  | err (e : JsError)
deriving DecidableEq

/-! ## Circuit breaker (`src/utils/circuit-breaker.ts`) -/

/-- The `CircuitState` enum. -/
inductive CircuitState
  | CLOSED
  | OPEN
  | HALF_OPEN
deriving DecidableEq

/-- An entry of the `monitoredErrors` config array, which mixes HTTP status
numbers and error-code strings. -/
inductive ErrKey
  | num (n : Nat)
  | str (s : String)
deriving DecidableEq

/-- Source: `Required<CircuitBreakerConfig>` after the constructor fills defaults. -/
structure CircuitBreakerConfig where
  failureThreshold : Nat := 5
  resetTimeout : Nat := 60000
  requestTimeout : Nat := 10000
  monitoredErrors : List ErrKey :=
    [.num 500, .num 502, .num 503, .num 504, .str ("ECONNREFUSED"), .str ("ETIMEDOUT")]
deriving DecidableEq

/-- The config produced by `new CircuitBreakerHandler({})`, i.e. all defaults. -/
def defaultCBConfig : CircuitBreakerConfig := {}

/-- The mutable fields of `CircuitBreakerHandler`. -/
structure CircuitBreakerHandler where
  state : CircuitState := .CLOSED
  failureCount : Nat := 0
  lastFailureTime : Nat := 0
  successCount : Nat := 0
deriving DecidableEq

/-- The freshly constructed handler. -/
def initCB : CircuitBreakerHandler := {}

/-- Source: `shouldCountError`: an error with a `response` is counted iff its status is
in `monitoredErrors`; otherwise an error with a `code` is counted iff the code
is in `monitoredErrors`; an error with neither is always counted. -/
def shouldCountError (cfg : CircuitBreakerConfig) (e : JsError) : Bool :=
  match e.response with
  | some r => cfg.monitoredErrors.contains (.num r.status)
  | none =>
    match e.code with
    | some c => cfg.monitoredErrors.contains (.str c)
    | none => true

/-- The plain `new Error("HTTP " + status)` thrown by `executeWithTimeout` when
a resolved response has status `>= 500`: it carries neither a `response` field
nor a `code` field. -/
def httpStatusError (status : Nat) : JsError :=
  { msg := "HTTP " ++ toString status, response := none, code := none }

/-- Source: `executeWithTimeout`: awaits the request; a resolved response with
`status >= 500` (`isErrorResponse`) is turned into a thrown error, any other
resolved response is returned unchanged, and a rejection propagates. The
timeout itself surfaces as a rejection of the request, so it is covered by the
`rejects` case. -/
def executeWithTimeout (o : NextOutcome) : TryResult :=
  match o with
  | .resolves r => if 500 ≤ r.status then .err (httpStatusError r.status) else .ok r
  | .rejects e => .err e

/-- Source: `isOpen`: in state `OPEN`, lazily moves to `HALF_OPEN` once `resetTimeout`
has elapsed since `lastFailureTime` and reports not-open; otherwise reports
open. Any other state reports not-open. Returns the updated handler. -/
def isOpenCheck (cfg : CircuitBreakerConfig) (cb : CircuitBreakerHandler) (now : Nat) :
    Bool × CircuitBreakerHandler :=
  match cb.state with
  | .OPEN =>
    if cfg.resetTimeout ≤ now - cb.lastFailureTime then
      (false, { cb with state := .HALF_OPEN })
    else
      (true, cb)
  | _ => (false, cb)

/-- Source: `reset`: zero the counters and close the circuit. -/
def resetCB (cb : CircuitBreakerHandler) : CircuitBreakerHandler :=
  { cb with failureCount := 0, successCount := 0, state := .CLOSED }

/-- Source: `onSuccess`: only acts in `HALF_OPEN`, where it counts the success and
fully closes after the second one. -/
def onSuccess (cb : CircuitBreakerHandler) : CircuitBreakerHandler :=
  if cb.state = .HALF_OPEN then
    let cb1 := { cb with successCount := cb.successCount + 1 }
    if 2 ≤ cb1.successCount then resetCB cb1 else cb1
  else cb

/-- Source: `onFailure`: ignores errors that `shouldCountError` rejects; otherwise
increments `failureCount`, stamps `lastFailureTime`, zeroes `successCount`,
and trips to `OPEN` from `CLOSED` at the threshold or from `HALF_OPEN`
immediately. -/
def onFailure (cfg : CircuitBreakerConfig) (cb : CircuitBreakerHandler) (now : Nat)
    (e : JsError) : CircuitBreakerHandler :=
  if shouldCountError cfg e = false then cb
  else
    let cb1 := { cb with
      failureCount := cb.failureCount + 1
      lastFailureTime := now
      successCount := 0 }
    if cb.state = .CLOSED ∧ cfg.failureThreshold ≤ cb1.failureCount then
      { cb1 with state := .OPEN }
    else if cb.state = .HALF_OPEN then
      { cb1 with state := .OPEN }
    else cb1

/-- Error surfaced by `CircuitBreakerHandler.execute`: either the
`Error("Circuit breaker is " + state)` thrown while open, or the propagated
error of the wrapped call. -/
inductive CBError
  | circuitOpen (st : CircuitState)
  | thrown (e : JsError)
deriving DecidableEq

/-- Overall outcome of one `execute` call. -/
inductive CBOutcome
  | ok (r : Resp)
  | err (e : CBError)
deriving DecidableEq

/-- Result record of one `execute` call: the returned/thrown value, the handler
state afterwards, and whether the wrapped `request` function was invoked. -/
structure CBResult where
  result : CBOutcome
  handler : CircuitBreakerHandler
  invokedNext : Bool
deriving DecidableEq

/-- Source: `CircuitBreakerHandler.execute`: refuse immediately while open, otherwise
run the wrapped call through `executeWithTimeout` and update the counters. -/
def CircuitBreakerHandler.execute (cfg : CircuitBreakerConfig)
    (cb : CircuitBreakerHandler) (now : Nat) (o : NextOutcome) : CBResult :=
  let chk := isOpenCheck cfg cb now
  if chk.1 then
    ⟨.err (.circuitOpen chk.2.state), chk.2, false⟩
  else
    match executeWithTimeout o with
    | .ok r => ⟨.ok r, onSuccess chk.2, true⟩
    | .err e => ⟨.err (.thrown e), onFailure cfg chk.2 now e, true⟩

/-- Iterated execution of `n` calls that all reject with the same error `e`
at time `now`, starting from `cb`. -/
def runFailures (cfg : CircuitBreakerConfig) (cb : CircuitBreakerHandler)
    (now : Nat) (e : JsError) : Nat → CircuitBreakerHandler
  | 0 => cb
  | n + 1 =>
    (CircuitBreakerHandler.execute cfg (runFailures cfg cb now e n) now (.rejects e)).handler

/-- Helper: one `execute` call on a `CLOSED` handler whose wrapped call rejects
with a counted error increments the counter, stamps the time, and trips to
`OPEN` exactly when the threshold is reached. -/
theorem execute_closed_rejects (cfg : CircuitBreakerConfig) (cb : CircuitBreakerHandler)
    (now : Nat) (e : JsError) (hs : cb.state = .CLOSED)
    (he : shouldCountError cfg e = true) :
    (CircuitBreakerHandler.execute cfg cb now (.rejects e)).handler =
      if cfg.failureThreshold ≤ cb.failureCount + 1 then
        { cb with
          state := .OPEN
          failureCount := cb.failureCount + 1
          lastFailureTime := now
          successCount := 0 }
      else
        { cb with
          failureCount := cb.failureCount + 1
          lastFailureTime := now
          successCount := 0 } := by
  simp [CircuitBreakerHandler.execute, isOpenCheck, executeWithTimeout, onFailure, hs, he]

/-- Helper: as long as fewer than `failureThreshold` counted failures occurred,
the handler stays `CLOSED` with `failureCount` equal to the number of
failures. -/
theorem runFailures_state_closed (cfg : CircuitBreakerConfig) (e : JsError) (now : Nat)
    (he : shouldCountError cfg e = true) :
    ∀ k, k < cfg.failureThreshold →
      (runFailures cfg initCB now e k).state = .CLOSED ∧
      (runFailures cfg initCB now e k).failureCount = k := by
  intro k
  induction k with
  | zero => intro _; exact ⟨rfl, rfl⟩
  | succ n ih =>
    intro h
    obtain ⟨hs, hc⟩ := ih (Nat.lt_of_succ_lt h)
    simp only [runFailures]
    rw [execute_closed_rejects cfg _ now e hs he, hc, if_neg (by omega)]
    exact ⟨hs, rfl⟩

/-- Claim C5: starting from a fresh handler, `failureThreshold` consecutive
counted failures leave the breaker `OPEN` with `lastFailureTime` stamped; and
on any `OPEN` handler, an `execute` call made before `resetTimeout` has
elapsed since `lastFailureTime` returns the circuit-open error immediately,
leaves the handler unchanged, and never invokes the wrapped call. -/
theorem C5_breaker_trip (cfg : CircuitBreakerConfig) (e : JsError) (now : Nat)
    (cb : CircuitBreakerHandler) (now2 : Nat) (o : NextOutcome)
    (he : shouldCountError cfg e = true) (ht : 0 < cfg.failureThreshold)
    (hopen : cb.state = .OPEN) (hlt : now2 - cb.lastFailureTime < cfg.resetTimeout) :
    ((runFailures cfg initCB now e cfg.failureThreshold).state = .OPEN
      ∧ (runFailures cfg initCB now e cfg.failureThreshold).lastFailureTime = now)
    ∧ CircuitBreakerHandler.execute cfg cb now2 o =
        ⟨.err (.circuitOpen .OPEN), cb, false⟩ := by
  constructor
  · obtain ⟨n, hn⟩ : ∃ n, cfg.failureThreshold = n + 1 :=
      ⟨cfg.failureThreshold - 1, by omega⟩
    obtain ⟨hs, hc⟩ := runFailures_state_closed cfg e now he n (by omega)
    rw [hn]
    simp only [runFailures]
    rw [execute_closed_rejects cfg _ now e hs he, hc, if_pos (by omega)]
    exact ⟨rfl, rfl⟩
  · simp [CircuitBreakerHandler.execute, isOpenCheck, hopen, not_le.mpr hlt]

/-- Witness for C5 at the default config: five counted network failures at
time 100 trip the breaker, and a call at time 150 is refused with the handler
untouched and the wrapped call not invoked. -/
theorem C5_breaker_trip_witness :
    ((runFailures defaultCBConfig initCB 100 ⟨"boom", none, none⟩
        defaultCBConfig.failureThreshold).state = .OPEN
      ∧ (runFailures defaultCBConfig initCB 100 ⟨"boom", none, none⟩
          defaultCBConfig.failureThreshold).lastFailureTime = 100)
    ∧ CircuitBreakerHandler.execute defaultCBConfig
        { state := .OPEN, failureCount := 5, lastFailureTime := 100, successCount := 0 }
        150 (.resolves ⟨200, 1⟩) =
        ⟨.err (.circuitOpen .OPEN),
          { state := .OPEN, failureCount := 5, lastFailureTime := 100, successCount := 0 },
          false⟩ :=
  C5_breaker_trip defaultCBConfig ⟨"boom", none, none⟩ 100
    { state := .OPEN, failureCount := 5, lastFailureTime := 100, successCount := 0 }
    150 (.resolves ⟨200, 1⟩) (by decide) (by decide) rfl (by decide)

/-- Claim C6: on an `OPEN` handler whose reset timeout has elapsed, the next
`execute` call is admitted (the wrapped call is invoked) in state `HALF_OPEN`,
and two consecutive successful calls take the breaker back to `CLOSED` with
`failureCount = 0`. The hypothesis `successCount = 0` holds of every reachable
`OPEN` state, since `onFailure` zeroes `successCount` on the transition into
`OPEN`. -/
theorem C6_breaker_recovery (cfg : CircuitBreakerConfig) (cb : CircuitBreakerHandler)
    (now1 now2 : Nat) (r1 r2 : Resp)
    (hst : cb.state = .OPEN) (hsc : cb.successCount = 0)
    (helapsed : cfg.resetTimeout ≤ now1 - cb.lastFailureTime)
    (hr1 : r1.status < 500) (hr2 : r2.status < 500) :
    (CircuitBreakerHandler.execute cfg cb now1 (.resolves r1)).invokedNext = true
    ∧ (CircuitBreakerHandler.execute cfg cb now1 (.resolves r1)).handler.state = .HALF_OPEN
    ∧ (CircuitBreakerHandler.execute cfg
        (CircuitBreakerHandler.execute cfg cb now1 (.resolves r1)).handler
        now2 (.resolves r2)).handler.state = .CLOSED
    ∧ (CircuitBreakerHandler.execute cfg
        (CircuitBreakerHandler.execute cfg cb now1 (.resolves r1)).handler
        now2 (.resolves r2)).handler.failureCount = 0 := by
  simp [CircuitBreakerHandler.execute, isOpenCheck, executeWithTimeout, onSuccess,
    resetCB, hst, hsc, helapsed, not_le.mpr hr1, not_le.mpr hr2]

/-- Witness for C6: breaker tripped at time 0 with the default config; calls at
times 60000 and 60001 both succeed, closing the breaker again. -/
theorem C6_breaker_recovery_witness :
    (CircuitBreakerHandler.execute defaultCBConfig
      { state := .OPEN, failureCount := 5, lastFailureTime := 0, successCount := 0 }
      60000 (.resolves ⟨200, 1⟩)).invokedNext = true
    ∧ (CircuitBreakerHandler.execute defaultCBConfig
        { state := .OPEN, failureCount := 5, lastFailureTime := 0, successCount := 0 }
        60000 (.resolves ⟨200, 1⟩)).handler.state = .HALF_OPEN
    ∧ (CircuitBreakerHandler.execute defaultCBConfig
        (CircuitBreakerHandler.execute defaultCBConfig
          { state := .OPEN, failureCount := 5, lastFailureTime := 0, successCount := 0 }
          60000 (.resolves ⟨200, 1⟩)).handler
        60001 (.resolves ⟨204, 2⟩)).handler.state = .CLOSED
    ∧ (CircuitBreakerHandler.execute defaultCBConfig
        (CircuitBreakerHandler.execute defaultCBConfig
          { state := .OPEN, failureCount := 5, lastFailureTime := 0, successCount := 0 }
          60000 (.resolves ⟨200, 1⟩)).handler
        60001 (.resolves ⟨204, 2⟩)).handler.failureCount = 0 :=
  C6_breaker_recovery defaultCBConfig
    { state := .OPEN, failureCount := 5, lastFailureTime := 0, successCount := 0 }
    60000 60001 ⟨200, 1⟩ ⟨204, 2⟩ rfl rfl (by decide) (by decide) (by decide)

/-- Counterexample to claim C7 as stated: a wrapped call that resolves with a
status-500 response does not get that response back unchanged; `execute`
converts it into a thrown error instead. -/
theorem C7_counterexample :
    (CircuitBreakerHandler.execute defaultCBConfig initCB 0
        (.resolves ⟨500, 7⟩)).result ≠ .ok ⟨500, 7⟩
    ∧ (CircuitBreakerHandler.execute defaultCBConfig initCB 0
        (.resolves ⟨500, 7⟩)).result = .err (.thrown (httpStatusError 500)) := by
  constructor
  · decide
  · rfl

/-- Claim C7 amended: for every call admitted in state `CLOSED` or `HALF_OPEN`
whose wrapped call resolves with a response of status `< 500`, `execute`
invokes the wrapped call and returns its response unchanged; responses with
status `>= 500` are instead converted into a thrown `HTTP <status>` error. -/
theorem C7_success_passthrough (cfg : CircuitBreakerConfig) (cb : CircuitBreakerHandler)
    (now : Nat) (r : Resp)
    (hadm : cb.state = .CLOSED ∨ cb.state = .HALF_OPEN) (hr : r.status < 500) :
    (CircuitBreakerHandler.execute cfg cb now (.resolves r)).result = .ok r
    ∧ (CircuitBreakerHandler.execute cfg cb now (.resolves r)).invokedNext = true := by
  rcases hadm with h | h <;>
    simp [CircuitBreakerHandler.execute, isOpenCheck, executeWithTimeout, h, not_le.mpr hr]

/-- Witness for C7 amended: a fresh handler passes a status-200 response
through unchanged. -/
theorem C7_success_passthrough_witness :
    (CircuitBreakerHandler.execute defaultCBConfig initCB 3
        (.resolves ⟨200, 5⟩)).result = .ok ⟨200, 5⟩
    ∧ (CircuitBreakerHandler.execute defaultCBConfig initCB 3
        (.resolves ⟨200, 5⟩)).invokedNext = true :=
  C7_success_passthrough defaultCBConfig initCB 3 ⟨200, 5⟩ (Or.inl rfl) (by decide)

/-- The error thrown by an adapter for an HTTP 501 response: it carries the
response object, so `shouldCountError` consults `monitoredErrors`. -/
def err501 : JsError :=
  { msg := "Request failed with status 501", response := some ⟨501, 0⟩, code := none }

/-- Counterexample to claim C3 as stated: under the default config, an error
carrying an HTTP 501 response (a 5xx status) is not counted: `execute` on a
fresh handler leaves `failureCount` at 0 and `lastFailureTime` unstamped. -/
theorem C3_counterexample :
    shouldCountError defaultCBConfig err501 = false
    ∧ (CircuitBreakerHandler.execute defaultCBConfig initCB 5
        (.rejects err501)).handler.failureCount = 0
    ∧ (CircuitBreakerHandler.execute defaultCBConfig initCB 5
        (.rejects err501)).handler.lastFailureTime = 0 := by
  refine ⟨by decide, ?_, ?_⟩ <;> decide

/-- Claim C3 amended: under the default config an error with a `response` is
counted iff its status is 500, 502, 503 or 504; an error without a `response`
but with a `code` is counted iff the code is ECONNREFUSED or ETIMEDOUT; an
error with neither (such as the timeout abort or the synthesized HTTP-5xx
error) is always counted. A counted error rejected by an admitted call
increments `failureCount` and stamps `lastFailureTime`; an uncounted one
leaves the handler unchanged. -/
theorem C3_default_error_counting (cfg : CircuitBreakerConfig)
    (cb : CircuitBreakerHandler) (now : Nat) (e : JsError)
    (hcl : cb.state = .CLOSED) :
    (shouldCountError defaultCBConfig e = true ↔
      ((∀ r, e.response = some r →
          (r.status = 500 ∨ r.status = 502 ∨ r.status = 503 ∨ r.status = 504))
        ∧ (e.response = none → ∀ c, e.code = some c →
            (c = "ECONNREFUSED" ∨ c = "ETIMEDOUT"))))
    ∧ (shouldCountError cfg e = true →
        (CircuitBreakerHandler.execute cfg cb now (.rejects e)).handler.failureCount
            = cb.failureCount + 1
        ∧ (CircuitBreakerHandler.execute cfg cb now (.rejects e)).handler.lastFailureTime
            = now)
    ∧ (shouldCountError cfg e = false →
        (CircuitBreakerHandler.execute cfg cb now (.rejects e)).handler = cb) := by
  refine ⟨?_, ?_, ?_⟩
  · rcases e with ⟨m, resp, code⟩
    rcases resp with _ | r
    · rcases code with _ | c <;>
        simp [shouldCountError, defaultCBConfig, List.contains, List.elem_iff]
    · simp [shouldCountError, defaultCBConfig, List.contains, List.elem_iff]
  · intro hcount
    rw [execute_closed_rejects cfg cb now e hcl hcount]
    split_ifs <;> exact ⟨rfl, rfl⟩
  · intro hcount
    simp [CircuitBreakerHandler.execute, isOpenCheck, executeWithTimeout, onFailure,
      hcl, hcount]

/-- Witness for C3 amended: a plain network error with neither response nor
code is counted, and counting it on a fresh handler at time 9 sets
`failureCount = 1` and `lastFailureTime = 9`. -/
theorem C3_default_error_counting_witness :
    (CircuitBreakerHandler.execute defaultCBConfig initCB 9
        (.rejects ⟨"Network Error", none, none⟩)).handler.failureCount = 0 + 1
    ∧ (CircuitBreakerHandler.execute defaultCBConfig initCB 9
        (.rejects ⟨"Network Error", none, none⟩)).handler.lastFailureTime = 9 :=
  (C3_default_error_counting defaultCBConfig initCB 9
    ⟨"Network Error", none, none⟩ rfl).2.1 (by decide)

/-! ## Retry orchestrator (`src/utils/retry.ts`) -/

/-- Source: `Required<RetryConfig>` after the constructor fills defaults; the retry
predicate is passed separately since it is a function value. -/
structure RetryConfig where
  maxRetries : Nat := 3
  retryDelay : Nat := 1000
deriving DecidableEq

/-- Source: `defaultRetryCondition`: retry on network-level errors (no `response`), on
5xx statuses, and on 429. -/
def defaultRetryCondition (e : JsError) : Bool :=
  match e.response with
  | none => true
  | some r =>
    if 500 ≤ r.status ∧ r.status ≤ 599 then true
    else if r.status = 429 then true
    else false

/-- Source: `getDelayTime`: exponential backoff, `retryDelay * 2 ^ retryCount`. -/
def getDelayTime (cfg : RetryConfig) (retryCount : Nat) : Nat :=
  cfg.retryDelay * 2 ^ retryCount

/-- Observable outcome of `RetryHandler.execute`: the final result, the number
of attempts performed, and the list of backoff delays awaited between
attempts, in order. -/
structure RetryOutcome where
  result : TryResult
  attemptsMade : Nat
  delays : List Nat
deriving DecidableEq

/-- The retry loop of `RetryHandler.execute`. `attempts k` is the outcome of
attempt number `k` (0-based); `k` plays the role of `retryCount`. The loop
returns on success, rethrows when `retryCount` reached `maxRetries` or the
predicate declines the error, and otherwise waits `getDelayTime` and retries.
The `fuel` argument only bounds the recursion; `execute` supplies
`maxRetries + 1`, which the guard `k = maxRetries` makes sufficient, so the
fuel-exhausted base case is unreachable from `execute`. -/
def retryGo (cfg : RetryConfig) (cond : JsError → Bool) (attempts : Nat → TryResult) :
    Nat → Nat → RetryOutcome
  | _, 0 => ⟨.err ⟨"", none, none⟩, 0, []⟩
  | k, fuel + 1 =>
    match attempts k with
    | .ok r => ⟨.ok r, k + 1, []⟩
    | .err e =>
      if k = cfg.maxRetries ∨ cond e = false then ⟨.err e, k + 1, []⟩
      else
        let rest := retryGo cfg cond attempts (k + 1) fuel
        ⟨rest.result, rest.attemptsMade, getDelayTime cfg k :: rest.delays⟩

/-- Source: `RetryHandler.execute`, starting at `retryCount = 0`. -/
def RetryHandler.execute (cfg : RetryConfig) (cond : JsError → Bool)
    (attempts : Nat → TryResult) : RetryOutcome :=
  retryGo cfg cond attempts 0 (cfg.maxRetries + 1)

/-- One-step unfolding of the retry loop. -/
theorem retryGo_step (cfg : RetryConfig) (cond : JsError → Bool)
    (attempts : Nat → TryResult) (k fuel : Nat) :
    retryGo cfg cond attempts k (fuel + 1) =
      match attempts k with
      | .ok r => ⟨.ok r, k + 1, []⟩
      | .err e =>
        if k = cfg.maxRetries ∨ cond e = false then ⟨.err e, k + 1, []⟩
        else
          ⟨(retryGo cfg cond attempts (k + 1) fuel).result,
           (retryGo cfg cond attempts (k + 1) fuel).attemptsMade,
           getDelayTime cfg k :: (retryGo cfg cond attempts (k + 1) fuel).delays⟩ := rfl

/-- Helper: when every attempt from `k` through `maxRetries` fails with a
retryable error, the loop performs them all, waits the exponential backoff
after each non-final attempt, and surfaces the last error. -/
theorem retryGo_all_fail (cfg : RetryConfig) (cond : JsError → Bool)
    (attempts : Nat → TryResult) (es : Nat → JsError)
    (hfail : ∀ j, j ≤ cfg.maxRetries → attempts j = .err (es j) ∧ cond (es j) = true) :
    ∀ m k, k + m = cfg.maxRetries →
      retryGo cfg cond attempts k (m + 1) =
        ⟨.err (es cfg.maxRetries), cfg.maxRetries + 1,
          (List.range' k m).map (getDelayTime cfg)⟩ := by
  intro m
  induction m with
  | zero =>
    intro k hk
    obtain ⟨ha, _⟩ := hfail k (by omega)
    have hke : k = cfg.maxRetries := by omega
    subst hke
    rw [retryGo_step, ha]
    simp [List.range']
  | succ n ih =>
    intro k hk
    obtain ⟨ha, hc⟩ := hfail k (by omega)
    have hrec := ih (k + 1) (by omega)
    have hne : ¬(k = cfg.maxRetries ∨ cond (es k) = false) := by
      simp [hc]
      omega
    rw [retryGo_step, ha]
    simp only []
    rw [if_neg hne, hrec]
    simp [List.range'_succ]

/-- Claim C8: when every attempt fails with an error the retry predicate
accepts, `execute` performs exactly `maxRetries + 1` attempts, waits
`retryDelay * 2 ^ attempt` after each attempt except the last, and finally
surfaces the error of the last attempt. -/
theorem C8_retry_backoff (cfg : RetryConfig) (cond : JsError → Bool)
    (attempts : Nat → TryResult) (es : Nat → JsError)
    (hfail : ∀ j, j ≤ cfg.maxRetries → attempts j = .err (es j) ∧ cond (es j) = true) :
    RetryHandler.execute cfg cond attempts =
      ⟨.err (es cfg.maxRetries), cfg.maxRetries + 1,
        (List.range cfg.maxRetries).map (fun k => cfg.retryDelay * 2 ^ k)⟩ := by
  have h := retryGo_all_fail cfg cond attempts es hfail cfg.maxRetries 0 (by omega)
  rw [RetryHandler.execute, h]
  simp [List.range_eq_range', getDelayTime]

/-- Witness for C8 with `maxRetries = 3, retryDelay = 50`: a permanently
failing retryable call is attempted 4 times, with delays 50, 100, 200, and the
final error is that of attempt 3 (the last one). -/
theorem C8_retry_backoff_witness :
    RetryHandler.execute { maxRetries := 3, retryDelay := 50 } defaultRetryCondition
      (fun k => .err ⟨toString k, none, none⟩) =
      ⟨.err ⟨toString 3, none, none⟩, 4, [50, 100, 200]⟩ := by
  have h := C8_retry_backoff { maxRetries := 3, retryDelay := 50 } defaultRetryCondition
    (fun k => .err ⟨toString k, none, none⟩) (fun k => ⟨toString k, none, none⟩)
    (fun j _ => ⟨rfl, rfl⟩)
  rw [h]
  decide

/-! ## Admission controller (`src/utils/rate-limit.ts`, `RateLimitHandler`) -/

/-- The `rateLimit` field of a request config: absent, a boolean, or a config
object. Only strict equality with `false` matters to the handler. -/
inductive RateLimitSetting
  | unset
  | flag (b : Bool)
  | cfgObject
deriving DecidableEq

/-- The `batch` field of a request config, with the same shape. -/
inductive BatchSetting
  | unset
  | flag (b : Bool)
  | cfgObject
deriving DecidableEq

/-- The fields of `RequestConfig` the pipeline components consult. -/
structure RequestConfig where
  url : String := ""
  baseURL : String := ""
  method : Option String := none
  rateLimit : RateLimitSetting := .unset
  batch : BatchSetting := .unset
  priority : Option Int := none
deriving DecidableEq

/-- Source: `Required<RateLimitConfig>` after the constructor fills defaults. These are
the only three fields the source type has: there is no queue-length bound. -/
structure RateLimitConfig where
  maxRequests : Nat := 50
  perMilliseconds : Nat := 1000
  maxConcurrent : Nat := 10
deriving DecidableEq

/-- A `QueuedRequest` entry: its priority (`config.priority ?? 0`) and its
enqueue sequence number, which stands for the resolve/reject handles and
records arrival order. -/
structure QueuedRequest where
  priority : Int
  seq : Nat
deriving DecidableEq

/-- The mutable fields of `RateLimitHandler`. -/
structure RateLimitHandler where
  requestTimestamps : List Nat := []
  activeRequests : Nat := 0
  queue : List QueuedRequest := []
deriving DecidableEq

/-- The freshly constructed handler. -/
def initRL : RateLimitHandler := {}

/-- Source: `shouldRateLimit`: only a strict `rateLimit === false` exempts a request. -/
def shouldRateLimit (c : RequestConfig) : Bool :=
  match c.rateLimit with
  | .flag false => false
  | _ => true

/-- Source: `cleanupTimestamps`: drop window timestamps older than
`perMilliseconds`. -/
def cleanupTimestamps (cfg : RateLimitConfig) (st : RateLimitHandler) (now : Nat) :
    RateLimitHandler :=
  { st with
    requestTimestamps :=
      st.requestTimestamps.filter (fun t => now - t < cfg.perMilliseconds) }

/-- Source: `canProcessRequest`: after cleanup, both the concurrency cap and the
sliding-window cap must have headroom. -/
def canProcessRequest (cfg : RateLimitConfig) (st : RateLimitHandler) (now : Nat) :
    Bool × RateLimitHandler :=
  let st1 := cleanupTimestamps cfg st now
  (decide (st1.activeRequests < cfg.maxConcurrent
    ∧ st1.requestTimestamps.length < cfg.maxRequests), st1)

/-- What `RateLimitHandler.execute` does synchronously on submission: a request
with `rateLimit === false` is invoked directly with no state change; every
other request is appended to the wait queue, unconditionally. -/
inductive SubmitKind
  | direct
  | queued
deriving DecidableEq

/-- The synchronous submission step of `RateLimitHandler.execute`: either the
direct-call bypass or the unconditional enqueue of a `QueuedRequest`. -/
def RateLimitHandler.execute (st : RateLimitHandler) (c : RequestConfig) (seq : Nat) :
    SubmitKind × RateLimitHandler :=
  if shouldRateLimit c = false then (.direct, st)
  else (.queued, { st with queue := st.queue ++ [⟨c.priority.getD 0, seq⟩] })

/-- Iterated submission of `n` rate-limited requests with config `c`. -/
def submitN (c : RequestConfig) (st : RateLimitHandler) : Nat → RateLimitHandler
  | 0 => st
  | n + 1 => (RateLimitHandler.execute (submitN c st n) c n).2

/-- Claim C10: a request whose config carries `rateLimit: false` is invoked
directly and the whole admission state is left unchanged: no timestamp is
recorded, the in-flight count is untouched, and the queue is untouched. -/
theorem C10_rate_limit_bypass (st : RateLimitHandler) (c : RequestConfig) (seq : Nat)
    (h : c.rateLimit = .flag false) :
    RateLimitHandler.execute st c seq = (.direct, st)
    ∧ (RateLimitHandler.execute st c seq).2.requestTimestamps = st.requestTimestamps
    ∧ (RateLimitHandler.execute st c seq).2.activeRequests = st.activeRequests
    ∧ (RateLimitHandler.execute st c seq).2.queue = st.queue := by
  simp [RateLimitHandler.execute, shouldRateLimit, h]

/-- Witness for C10: a bypassing request leaves a nonempty admission state
exactly as it was. -/
theorem C10_rate_limit_bypass_witness :
    RateLimitHandler.execute
        { requestTimestamps := [3, 4], activeRequests := 2, queue := [⟨5, 0⟩] }
        { rateLimit := .flag false } 1 =
      (.direct, { requestTimestamps := [3, 4], activeRequests := 2, queue := [⟨5, 0⟩] })
    ∧ (RateLimitHandler.execute
        { requestTimestamps := [3, 4], activeRequests := 2, queue := [⟨5, 0⟩] }
        { rateLimit := .flag false } 1).2.requestTimestamps = [3, 4]
    ∧ (RateLimitHandler.execute
        { requestTimestamps := [3, 4], activeRequests := 2, queue := [⟨5, 0⟩] }
        { rateLimit := .flag false } 1).2.activeRequests = 2
    ∧ (RateLimitHandler.execute
        { requestTimestamps := [3, 4], activeRequests := 2, queue := [⟨5, 0⟩] }
        { rateLimit := .flag false } 1).2.queue = [⟨5, 0⟩] :=
  C10_rate_limit_bypass
    { requestTimestamps := [3, 4], activeRequests := 2, queue := [⟨5, 0⟩] }
    { rateLimit := .flag false } 1 rfl

set_option maxRecDepth 8192

/-- Counterexample to claim C2 as stated: submissions are never rejected.
Starting from the fresh handler, 100 rate-limited submissions produce a queue
of length 100, and the next submission is still enqueued (queue length 101)
rather than rejected — the queue grows beyond any purported configured
maximum, and the result kind of every submission is `queued`, never an
error. -/
theorem C2_counterexample :
    (submitN { rateLimit := .flag true } initRL 100).queue.length = 100
    ∧ (RateLimitHandler.execute (submitN { rateLimit := .flag true } initRL 100)
        { rateLimit := .flag true } 100).1 = .queued
    ∧ (RateLimitHandler.execute (submitN { rateLimit := .flag true } initRL 100)
        { rateLimit := .flag true } 100).2.queue.length = 101 := by
  refine ⟨by decide, by decide, by decide⟩

/-- Claim C2 amended: the wait queue is unbounded. `RateLimitConfig` has no
maximum queue length, and a submission subject to rate limiting is always
appended to the wait queue — the queue length grows by exactly one on every
such submission, at every queue length, and no submission is ever rejected
with a queue-full error. -/
theorem C2_queue_unbounded (st : RateLimitHandler) (c : RequestConfig) (seq : Nat)
    (h : shouldRateLimit c = true) :
    RateLimitHandler.execute st c seq =
      (.queued, { st with queue := st.queue ++ [⟨c.priority.getD 0, seq⟩] })
    ∧ (RateLimitHandler.execute st c seq).2.queue.length = st.queue.length + 1 := by
  constructor
  · simp [RateLimitHandler.execute, h]
  · simp [RateLimitHandler.execute, h]

/-- Witness for C2 amended: a submission on a queue of length 2 is enqueued at
the back, giving length 3. -/
theorem C2_queue_unbounded_witness :
    RateLimitHandler.execute
        { requestTimestamps := [], activeRequests := 0, queue := [⟨0, 0⟩, ⟨0, 1⟩] }
        { rateLimit := .unset, priority := some 7 } 2 =
      (.queued,
        { requestTimestamps := [], activeRequests := 0, queue := [⟨0, 0⟩, ⟨0, 1⟩, ⟨7, 2⟩] })
    ∧ (RateLimitHandler.execute
        { requestTimestamps := [], activeRequests := 0, queue := [⟨0, 0⟩, ⟨0, 1⟩] }
        { rateLimit := .unset, priority := some 7 } 2).2.queue.length = 2 + 1 :=
  C2_queue_unbounded
    { requestTimestamps := [], activeRequests := 0, queue := [⟨0, 0⟩, ⟨0, 1⟩] }
    { rateLimit := .unset, priority := some 7 } 2 rfl

/-- Stable insertion modelling `Array.prototype.sort` with comparator
`(a, b) => b.priority - a.priority`: the JS sort is stable (ES2019), and the
unique stable sort by descending priority is computed by this insertion sort,
which keeps an earlier element before any equal-priority later element. -/
def insertDesc (e : QueuedRequest) : List QueuedRequest → List QueuedRequest
  | [] => [e]
  | x :: xs => if x.priority ≤ e.priority then e :: x :: xs else x :: insertDesc e xs

/-- Source: `this.queue.sort((a, b) => b.priority - a.priority)`. -/
def sortQueue : List QueuedRequest → List QueuedRequest
  | [] => []
  | x :: xs => insertDesc x (sortQueue xs)

/-- Source: `getNextRequest`: on a nonempty queue, sort by priority descending in
place and shift the head. -/
def getNextRequest (st : RateLimitHandler) : Option QueuedRequest × RateLimitHandler :=
  match sortQueue st.queue with
  | [] => (none, st)
  | y :: ys => (some y, { st with queue := ys })

/-- The order in which the `processQueue` loop serves a queue when no further
submissions interleave: repeatedly sort and shift until the queue is empty.
The fuel argument is the queue length, which sorting preserves. -/
def drainList : List QueuedRequest → Nat → List QueuedRequest
  | _, 0 => []
  | q, fuel + 1 =>
    match sortQueue q with
    | [] => []
    | y :: ys => y :: drainList ys fuel

/-- The full service order of a static queue. -/
def drain (q : List QueuedRequest) : List QueuedRequest := drainList q q.length

/-- Priority-descending comparison, the order the JS comparator sorts by. -/
def prioGE (a b : QueuedRequest) : Prop := b.priority ≤ a.priority

/-- The service order claimed for the wait queue: priority descending, ties
broken by enqueue sequence ascending (FIFO). -/
def keyLE (a b : QueuedRequest) : Prop :=
  b.priority < a.priority ∨ (a.priority = b.priority ∧ a.seq ≤ b.seq)

instance (a b : QueuedRequest) : Decidable (keyLE a b) := by
  unfold keyLE
  infer_instance

theorem mem_insertDesc {a e : QueuedRequest} {l : List QueuedRequest} :
    a ∈ insertDesc e l ↔ a = e ∨ a ∈ l := by
  induction l with
  | nil => simp [insertDesc]
  | cons x xs ih =>
    simp only [insertDesc]
    split_ifs with h
    · simp [List.mem_cons]
    · simp only [List.mem_cons, ih]
      tauto

theorem perm_insertDesc (e : QueuedRequest) (l : List QueuedRequest) :
    (insertDesc e l).Perm (e :: l) := by
  induction l with
  | nil => exact List.Perm.refl _
  | cons x xs ih =>
    simp only [insertDesc]
    split_ifs with h
    · exact List.Perm.refl _
    · exact (ih.cons x).trans (List.Perm.swap e x xs)

theorem perm_sortQueue (q : List QueuedRequest) : (sortQueue q).Perm q := by
  induction q with
  | nil => exact List.Perm.refl _
  | cons x xs ih =>
    simp only [sortQueue]
    exact (perm_insertDesc x (sortQueue xs)).trans (ih.cons x)

theorem keyLE_ple {a b : QueuedRequest} (h : keyLE a b) : b.priority ≤ a.priority := by
  rcases h with h | ⟨h, _⟩
  · exact h.le
  · exact h.ge

theorem keyLE_of_ple_sle {a b : QueuedRequest} (hp : b.priority ≤ a.priority)
    (hs : a.seq ≤ b.seq) : keyLE a b := by
  rcases lt_or_eq_of_le hp with h | h
  · exact Or.inl h
  · exact Or.inr ⟨h.symm, hs⟩

theorem sorted_prio_insertDesc {e : QueuedRequest} {l : List QueuedRequest}
    (hs : List.Sorted prioGE l) : List.Sorted prioGE (insertDesc e l) := by
  induction l with
  | nil => simp [insertDesc]
  | cons x xs ih =>
    rw [List.sorted_cons] at hs
    obtain ⟨hx, hxs⟩ := hs
    simp only [insertDesc]
    split_ifs with h
    · rw [List.sorted_cons]
      refine ⟨?_, List.sorted_cons.mpr ⟨hx, hxs⟩⟩
      intro b hb
      rcases List.mem_cons.mp hb with rfl | hb2
      · exact h
      · exact le_trans (hx b hb2) h
    · rw [List.sorted_cons]
      constructor
      · intro b hb
        rcases mem_insertDesc.mp hb with rfl | hb2
        · exact (not_le.mp h).le
        · exact hx b hb2
      · exact ih hxs

theorem sorted_prio_sortQueue (q : List QueuedRequest) :
    List.Sorted prioGE (sortQueue q) := by
  induction q with
  | nil => simp [sortQueue]
  | cons x xs ih =>
    simp only [sortQueue]
    exact sorted_prio_insertDesc ih

theorem sortQueue_eq_self {l : List QueuedRequest} (hs : List.Sorted prioGE l) :
    sortQueue l = l := by
  induction l with
  | nil => rfl
  | cons x xs ih =>
    rw [List.sorted_cons] at hs
    obtain ⟨hx, hxs⟩ := hs
    simp only [sortQueue, ih hxs]
    cases xs with
    | nil => rfl
    | cons y ys =>
      have hy : y.priority ≤ x.priority := hx y (by simp)
      simp [insertDesc, hy]

/-- One-step unfolding of the drain loop. -/
theorem drainList_step (q : List QueuedRequest) (fuel : Nat) :
    drainList q (fuel + 1) =
      match sortQueue q with
      | [] => []
      | y :: ys => y :: drainList ys fuel := rfl

theorem drainList_eq_sortQueue :
    ∀ (n : Nat) (q : List QueuedRequest), q.length ≤ n → drainList q n = sortQueue q := by
  intro n
  induction n with
  | zero =>
    intro q hq
    have hnil : q = [] := List.length_eq_zero.mp (Nat.le_zero.mp hq)
    subst hnil
    rfl
  | succ n ih =>
    intro q hq
    cases hsq : sortQueue q with
    | nil =>
      have hlen := (perm_sortQueue q).length_eq
      rw [hsq] at hlen
      have hnil : q = [] := List.length_eq_zero.mp (by simpa using hlen.symm)
      subst hnil
      rfl
    | cons y ys =>
      have hsorted := sorted_prio_sortQueue q
      rw [hsq, List.sorted_cons] at hsorted
      obtain ⟨_, hys⟩ := hsorted
      have hlen := (perm_sortQueue q).length_eq
      rw [hsq] at hlen
      have hle : ys.length ≤ n := by
        simp only [List.length_cons] at hlen
        omega
      rw [drainList_step, hsq]
      show y :: drainList ys n = y :: ys
      rw [ih ys hle, sortQueue_eq_self hys]

theorem drain_eq_sortQueue (q : List QueuedRequest) : drain q = sortQueue q :=
  drainList_eq_sortQueue q.length q le_rfl

theorem sorted_key_insertDesc {e : QueuedRequest} {l : List QueuedRequest}
    (hseq : ∀ b ∈ l, e.seq < b.seq) (hs : List.Sorted keyLE l) :
    List.Sorted keyLE (insertDesc e l) := by
  induction l with
  | nil => simp [insertDesc]
  | cons x xs ih =>
    rw [List.sorted_cons] at hs
    obtain ⟨hx, hxs⟩ := hs
    simp only [insertDesc]
    split_ifs with h
    · rw [List.sorted_cons]
      refine ⟨?_, List.sorted_cons.mpr ⟨hx, hxs⟩⟩
      intro b hb
      have hple : b.priority ≤ e.priority := by
        rcases List.mem_cons.mp hb with rfl | hb2
        · exact h
        · exact le_trans (keyLE_ple (hx b hb2)) h
      exact keyLE_of_ple_sle hple (hseq b hb).le
    · rw [List.sorted_cons]
      constructor
      · intro b hb
        rcases mem_insertDesc.mp hb with rfl | hb2
        · exact Or.inl (not_le.mp h)
        · exact hx b hb2
      · exact ih (fun b hb => hseq b (List.mem_cons_of_mem x hb)) hxs

theorem sorted_key_sortQueue {q : List QueuedRequest}
    (hq : q.Pairwise (fun a b => a.seq < b.seq)) :
    List.Sorted keyLE (sortQueue q) := by
  induction q with
  | nil => simp [sortQueue]
  | cons x xs ih =>
    rw [List.pairwise_cons] at hq
    obtain ⟨hx, hxs⟩ := hq
    simp only [sortQueue]
    exact sorted_key_insertDesc
      (fun b hb => hx b ((perm_sortQueue xs).mem_iff.mp hb))
      (ih hxs)

/-- Claim C9: on a queue whose enqueue sequence numbers are strictly
increasing, the service order is a permutation of the queue that is sorted by
priority descending with FIFO tie-breaking (the `keyLE` order); in particular
three queued calls with priorities 1, 3, 2 in arrival order are served 3, 2,
1. -/
theorem C9_priority_fifo (q : List QueuedRequest)
    (hq : q.Pairwise (fun a b => a.seq < b.seq)) :
    (drain q).Perm q
    ∧ List.Sorted keyLE (drain q)
    ∧ drain [⟨1, 0⟩, ⟨3, 1⟩, ⟨2, 2⟩] = [⟨3, 1⟩, ⟨2, 2⟩, ⟨1, 0⟩] := by
  refine ⟨?_, ?_, by decide⟩
  · rw [drain_eq_sortQueue]
    exact perm_sortQueue q
  · rw [drain_eq_sortQueue]
    exact sorted_key_sortQueue hq

/-- Witness for C9 at the concrete [1, 3, 2] scenario. -/
theorem C9_priority_fifo_witness :
    (drain [⟨1, 0⟩, ⟨3, 1⟩, ⟨2, 2⟩]).Perm [⟨1, 0⟩, ⟨3, 1⟩, ⟨2, 2⟩]
    ∧ List.Sorted keyLE (drain [⟨1, 0⟩, ⟨3, 1⟩, ⟨2, 2⟩])
    ∧ drain [⟨1, 0⟩, ⟨3, 1⟩, ⟨2, 2⟩] = [⟨3, 1⟩, ⟨2, 2⟩, ⟨1, 0⟩] :=
  C9_priority_fifo [⟨1, 0⟩, ⟨3, 1⟩, ⟨2, 2⟩] (by decide)

/-! ## Batch coordinator (`src/utils/batch.ts`, first unit) -/

/-- Source: `Required<BatchConfig>` after the constructor fills defaults. -/
structure BatchConfig where
  maxBatchSize : Nat := 5
  batchDelay : Nat := 50
deriving DecidableEq

/-- A pending batch item: its request config plus a tag standing for the
resolve/reject pair (caller identity). -/
structure BatchItem where
  config : RequestConfig
  tag : Nat
deriving DecidableEq

/-- The bypass test at the top of `BatchHandler.execute`: `batch === false` or
an uppercased write method skips batching entirely. -/
def bypassBatch (c : RequestConfig) : Bool :=
  (c.batch == BatchSetting.flag false) ||
    (["POST", "PUT", "DELETE", "PATCH"] : List String).contains (c.method.getD ("GET")).toUpper

/-- JS strings are handled as their character lists from here on, so that the
casing and splitting below compute by structural recursion. -/
def getBatchKey (c : RequestConfig) : List Char :=
  (c.baseURL ++ "|" ++ c.url ++ "|" ++ c.method.getD ("GET")).data.map Char.toUpper

/-- Source: `groupBatchRequests` accumulates items into a string-keyed record; a JS
object preserves string-key insertion order, so the record is an ordered
association list and each push appends at the back of its group. -/
def addToGroups (key : List Char) (e : BatchItem) :
    List (List Char × List BatchItem) → List (List Char × List BatchItem)
  | [] => [(key, [e])]
  | (k, es) :: rest =>
    if k = key then (k, es ++ [e]) :: rest else (k, es) :: addToGroups key e rest

/-- Source: `groupBatchRequests` over the current batch. -/
def groupBatchRequests (batch : List BatchItem) : List (List Char × List BatchItem) :=
  batch.foldl (fun gs e => addToGroups (getBatchKey e.config) e gs) []

/-- Source: `processBatch` makes exactly one `request` call per group. -/
def upstreamCalls (batch : List BatchItem) : Nat := (groupBatchRequests batch).length

/-- Source: `String.prototype.split` with a one-character separator, on character
lists. -/
def splitOnChar (sep : Char) : List Char → List (List Char)
  | [] => [[]]
  | c :: cs =>
    match splitOnChar sep cs with
    | [] => [[]]
    | p :: ps => if c = sep then [] :: p :: ps else (c :: p) :: ps

/-- An element of an aggregate response array: either a non-object value, or
an object carrying its string `id` field when it has one. An object whose
`id` is not a string never strictly equals the URL segment string, so it
behaves exactly like an object without `id` and is modelled the same way. -/
inductive AggItem
  | prim (tag : Nat)
  | obj (id : Option String) (tag : Nat)
deriving DecidableEq

/-- The aggregate response data: an array, or any non-array value. -/
inductive AggData
  | arr (items : List AggItem)
  | scalar (tag : Nat)
deriving DecidableEq

/-- What one caller receives from the fan-out: a matching array item, or the
whole aggregate handed back unmodified. -/
inductive Extracted
  | item (it : AggItem)
  | whole
deriving DecidableEq

/-- The predicate of the `data.find` call: an object whose `id` field strictly
equals the identifier string. -/
def isMatch (id : List Char) : AggItem → Bool
  | .prim _ => false
  | .obj i _ =>
    match i with
    | some s => s.data == id
    | none => false

/-- Source: `urlParts[urlParts.length - 1]` of `config.url.split('/')`. -/
def trailingSegment (url : String) : List Char :=
  (splitOnChar '/' url.data).getLastD []

/-- Source: `extractResponseData`: non-array data is returned whole; otherwise the
first array item whose `id` equals the trailing URL segment is returned, or
the whole array when the segment is empty or nothing matches. -/
def extractResponseData (data : AggData) (c : RequestConfig) : Extracted :=
  match data with
  | .scalar _ => .whole
  | .arr items =>
    let id := trailingSegment c.url
    if id = [] then .whole
    else
      match items.find? (isMatch id) with
      | some it => .item it
      | none => .whole

/-- The fan-out of one group: every item of the group resolves with its own
extraction from the shared aggregate response. -/
def processGroup (respData : AggData) (items : List BatchItem) : List (Nat × Extracted) :=
  items.map (fun e => (e.tag, extractResponseData respData e.config))

/-- Joins path segments back with slashes. -/
def joinSlash : List (List Char) → List Char
  | [] => []
  | [p] => p
  | p :: ps => p ++ '/' :: joinSlash ps

/-- Modelled from the spec: the target key of the claim, method plus base
path with the per-item identifier (the trailing path segment) excluded.
Present only to compare the claimed grouping key with the one in the code. -/
def specTargetKey (c : RequestConfig) : List Char :=
  (c.method.getD ("GET")).data ++ '|' :: c.baseURL.data ++
    '|' :: joinSlash (splitOnChar '/' c.url.data).dropLast

def cfgUsers1 : RequestConfig := { url := "/users/1", method := some ("GET") }

def cfgUsers2 : RequestConfig := { url := "/users/2", method := some ("GET") }

/-- Counterexample to claim C4 as stated: two batchable GETs whose target key
(method + base path, per-item identifier excluded) is identical but whose
trailing identifiers differ land in different groups, so the batch makes two
upstream Transport invocations, not one. -/
theorem C4_counterexample :
    specTargetKey cfgUsers1 = specTargetKey cfgUsers2
    ∧ getBatchKey cfgUsers1 ≠ getBatchKey cfgUsers2
    ∧ upstreamCalls [⟨cfgUsers1, 1⟩, ⟨cfgUsers2, 2⟩] = 2 := by
  refine ⟨by decide, by decide, by decide⟩

theorem addToGroups_same (k : List Char) (e : BatchItem) (es : List BatchItem) :
    addToGroups k e [(k, es)] = [(k, es ++ [e])] := by
  simp [addToGroups]

theorem foldl_addToGroups_same (k : List Char) :
    ∀ (batch : List BatchItem) (es : List BatchItem),
      (∀ e ∈ batch, getBatchKey e.config = k) →
      batch.foldl (fun gs e => addToGroups (getBatchKey e.config) e gs) [(k, es)]
        = [(k, es ++ batch)] := by
  intro batch
  induction batch with
  | nil => intro es _; simp
  | cons b bs ih =>
    intro es hk
    have hb : getBatchKey b.config = k := hk b (by simp)
    simp only [List.foldl_cons, hb, addToGroups_same]
    rw [ih (es ++ [b]) (fun e he => hk e (by simp [he]))]
    simp

theorem extract_eq_item {items : List AggItem} {c : RequestConfig} {it : AggItem}
    (hid : trailingSegment c.url ≠ [])
    (hfind : items.find? (isMatch (trailingSegment c.url)) = some it) :
    extractResponseData (.arr items) c = .item it := by
  simp only [extractResponseData]
  rw [if_neg hid, hfind]

theorem extract_eq_whole {items : List AggItem} {c : RequestConfig}
    (hfind : items.find? (isMatch (trailingSegment c.url)) = none) :
    extractResponseData (.arr items) c = .whole := by
  simp only [extractResponseData]
  split_ifs with h
  · rfl
  · rw [hfind]

/-- Claim C4 amended: grouping is by the full uppercased `baseURL|url|method`
string, per-item identifier included, so exactly one upstream invocation is
made per batch only when all entries share that full key; for such a batch
the single group carries all entries in order, and each caller receives the
first aggregate array item whose `id` equals its own trailing URL segment, or
the whole aggregate unmodified when no item matches. -/
theorem C4_batch_merge (k : List Char) (batch : List BatchItem) (hne : batch ≠ [])
    (hk : ∀ e ∈ batch, getBatchKey e.config = k) :
    (groupBatchRequests batch = [(k, batch)] ∧ upstreamCalls batch = 1)
    ∧ (∀ (items : List AggItem) (e : BatchItem) (it : AggItem), e ∈ batch →
        trailingSegment e.config.url ≠ [] →
        items.find? (isMatch (trailingSegment e.config.url)) = some it →
        (e.tag, Extracted.item it) ∈ processGroup (.arr items) batch
        ∧ isMatch (trailingSegment e.config.url) it = true)
    ∧ (∀ (items : List AggItem) (e : BatchItem), e ∈ batch →
        items.find? (isMatch (trailingSegment e.config.url)) = none →
        (e.tag, Extracted.whole) ∈ processGroup (.arr items) batch) := by
  refine ⟨?_, ?_, ?_⟩
  · cases batch with
    | nil => exact absurd rfl hne
    | cons b bs =>
      have hb : getBatchKey b.config = k := hk b (by simp)
      have hgroups : groupBatchRequests (b :: bs) = [(k, b :: bs)] := by
        simp only [groupBatchRequests, List.foldl_cons, hb]
        show List.foldl _ (addToGroups k b []) bs = _
        simp only [addToGroups]
        rw [foldl_addToGroups_same k bs [b] (fun e he => hk e (by simp [he]))]
        simp
      exact ⟨hgroups, by simp [upstreamCalls, hgroups]⟩
  · intro items e it he hid hfind
    refine ⟨?_, ?_⟩
    · have hx : extractResponseData (.arr items) e.config = .item it :=
        extract_eq_item hid hfind
      simp only [processGroup]
      refine List.mem_map.mpr ⟨e, he, ?_⟩
      rw [hx]
    · exact List.find?_some hfind
  · intro items e he hfind
    have hx : extractResponseData (.arr items) e.config = .whole :=
      extract_eq_whole hfind
    simp only [processGroup]
    refine List.mem_map.mpr ⟨e, he, ?_⟩
    rw [hx]

/-- Witness for C4 amended: two callers with the identical full key merge
into one upstream call, and the caller with url `/users/7` receives the array
item with id `"7"`. -/
theorem C4_batch_merge_witness :
    (groupBatchRequests [⟨{ url := "/users/7", method := some ("GET") }, 1⟩,
        ⟨{ url := "/users/7", method := some ("GET") }, 2⟩] =
      [("|/USERS/7|GET".data, [⟨{ url := "/users/7", method := some ("GET") }, 1⟩,
        ⟨{ url := "/users/7", method := some ("GET") }, 2⟩])]
      ∧ upstreamCalls [⟨{ url := "/users/7", method := some ("GET") }, 1⟩,
          ⟨{ url := "/users/7", method := some ("GET") }, 2⟩] = 1)
    ∧ ((⟨1, Extracted.item (.obj (some ("7")) 11)⟩ : Nat × Extracted) ∈
        processGroup (.arr [.obj (some ("5")) 10, .obj (some ("7")) 11])
          [⟨{ url := "/users/7", method := some ("GET") }, 1⟩,
            ⟨{ url := "/users/7", method := some ("GET") }, 2⟩]
      ∧ isMatch (trailingSegment ({ url := "/users/7", method := some ("GET") }
          : RequestConfig).url) (.obj (some ("7")) 11) = true) :=
  have h := C4_batch_merge ("|/USERS/7|GET").data
    [⟨{ url := "/users/7", method := some ("GET") }, 1⟩,
      ⟨{ url := "/users/7", method := some ("GET") }, 2⟩]
    (by decide) (by decide)
  ⟨h.1, h.2.1 [.obj (some ("5")) 10, .obj (some ("7")) 11]
    ⟨{ url := "/users/7", method := some ("GET") }, 1⟩ (.obj (some ("7")) 11)
    (by simp) (by decide) (by decide)⟩

/-! ## Execution pipeline (`CoralFuzzy.executeRequest`, second unit of
`src/adapters/xhr-adapter.ts`) -/

/-- The components a request can pass through, as trace entries. -/
inductive Stage
  | securityValidate
  | requestPool
  | circuitBreaker
  | rateLimit
  | compressRequest
  | transport
  | decompressResponse
  | batchCoordinator
  | retryOrchestrator
deriving DecidableEq

/-- A pipeline component as a trace transformer: entering the component
records its stage, then the wrapped continuation runs. -/
def wrapStage (s : Stage) (inner : List Stage → List Stage) (tr : List Stage) :
    List Stage :=
  inner (tr ++ [s])

/-- The adapter call. -/
def transportSend (tr : List Stage) : List Stage := tr ++ [Stage.transport]

/-- The composition in `CoralFuzzy.executeRequest`: validate security, then
`requestPool.execute` wrapping `circuitBreaker.execute` wrapping
`rateLimit.execute` wrapping (compress request, adapter request, decompress
response). Neither `batchHandler.execute` nor `retry.execute` appears in the
chain, although both handlers are constructed on the instance. -/
def executeRequest : List Stage → List Stage :=
  wrapStage .securityValidate
    (wrapStage .requestPool
      (wrapStage .circuitBreaker
        (wrapStage .rateLimit
          (fun tr => transportSend (tr ++ [Stage.compressRequest])
            ++ [Stage.decompressResponse]))))

/-- The trace of one request through `executeRequest`. -/
def executeRequestTrace : List Stage := executeRequest []

/-- Modelled from the spec: the canonical composed order of the claim,
outermost first — Batch Coordinator, Circuit Breaker, Admission Controller,
Retry Orchestrator, Transport. Present only for comparison with
`executeRequest`. -/
def specPipeline : List Stage → List Stage :=
  wrapStage .batchCoordinator
    (wrapStage .circuitBreaker
      (wrapStage .rateLimit
        (wrapStage .retryOrchestrator transportSend)))

/-- The trace the claimed composition would produce. -/
def specPipelineTrace : List Stage := specPipeline []

/-- Counterexample to claim C1 as stated: the request path of
`executeRequest` does not produce the claimed nesting; in particular the
Batch Coordinator and the Retry Orchestrator are never entered. -/
theorem C1_counterexample :
    executeRequestTrace ≠ specPipelineTrace
    ∧ Stage.batchCoordinator ∉ executeRequestTrace
    ∧ Stage.retryOrchestrator ∉ executeRequestTrace := by
  refine ⟨by decide, by decide, by decide⟩

/-- Claim C1 amended: the composed call in `executeRequest` is security
validation, then `requestPool.execute` wrapping `circuitBreaker.execute`
wrapping `rateLimit.execute` wrapping compression around the Transport send;
the Batch Coordinator and the Retry Orchestrator are not invoked on the
request path at all. -/
theorem C1_pipeline_order :
    executeRequestTrace =
      [.securityValidate, .requestPool, .circuitBreaker, .rateLimit,
        .compressRequest, .transport, .decompressResponse]
    ∧ Stage.batchCoordinator ∉ executeRequestTrace
    ∧ Stage.retryOrchestrator ∉ executeRequestTrace := by
  refine ⟨by decide, by decide, by decide⟩

end CoralFuzzy
